import Mathlib

/-!
Verification of the neural optimal-transport training code
(`ott/neural/flows/samplers.py`, `ott/neural/solvers/otfm.py`,
`ott/neural/solvers/flow_matching.py`, and the barycenter solver exercised by
`tests/core/continuous_barycenter_test.py`) against its natural-language
specification.

Numbers are modelled by exact rationals `ℚ`.  JAX's pseudo-random keys are
modelled by an abstract splittable key type; a call to `jax.random.uniform`
is abstracted by the stream `draw : ℕ → ℚ` of values the key deterministically
produces, constrained by the hypothesis that each value lies in the requested
half-open interval (which is what `jax.random.uniform` guarantees).
-/

namespace OttNeural

/-- NumPy/JAX floating-point modulo (sign of the divisor), over exact
rationals: `x % m = x - ⌊x / m⌋ * m`. -/
def fmod (x m : ℚ) : ℚ := x - ⌊x / m⌋ * m

/-- `a ≡ b (mod r)` over the rationals: the difference is an integer multiple
of `r`.  This is the meaning of "differ by `b` modulo `r`" in the spec. -/
def ratModEq (r a b : ℚ) : Prop := ∃ k : ℤ, a - b = k * r

theorem fmod_eq_mul_fract (x m : ℚ) (hm : m ≠ 0) :
    fmod x m = m * Int.fract (x / m) := by
  unfold fmod Int.fract
  field_simp
  ring

theorem fmod_nonneg (x m : ℚ) (hm : 0 < m) : 0 ≤ fmod x m := by
  rw [fmod_eq_mul_fract x m hm.ne']
  exact mul_nonneg hm.le (Int.fract_nonneg _)

theorem fmod_lt (x m : ℚ) (hm : 0 < m) : fmod x m < m := by
  rw [fmod_eq_mul_fract x m hm.ne']
  calc m * Int.fract (x / m) < m * 1 :=
        (mul_lt_mul_left hm).mpr (Int.fract_lt_one _)
    _ = m := mul_one m

/-- Shallow embedding of `samplers.sample_uniformly`.  `draw i` is the `i`-th
scalar produced by `jax.random.uniform(rng, (num_samples, 1), minval=low,
maxval=high)`; the offset branch issues a single draw of shape `(1, 1)` with
the same bounds, hence uses only `draw 0`.  The `(num_samples, 1)`-shaped
array collapses to a list of `num_samples` scalars. -/
def sample_uniformly (draw : ℕ → ℚ) (num_samples : ℕ) (low high : ℚ)
    (offset : Option ℚ) : List ℚ :=
  match offset with
  | none => (List.range num_samples).map draw
  | some off =>
      (List.range num_samples).map
        (fun i : ℕ => fmod (draw 0 + (i : ℚ) / (num_samples : ℚ))
          ((high - low) - off))

theorem getD_range_map {α : Type} (f : ℕ → α) (n i : ℕ) (hi : i < n) (d : α) :
    ((List.range n).map f).getD i d = f i := by
  rw [List.getD_eq_getElem?_getD]
  simp [List.getElem?_map, List.getElem?_range, hi]

/-- C1 counterexample: the configuration `low = 1 < high = 2`,
`num_samples = 1`, `offset = 1/2` is valid and the uniform draw `3/2` lies in
`[low, high)`, yet the offset-stratified variant returns the sample `0`,
which is not in `[low, high) = [1, 2)`. -/
theorem sample_uniformly_offset_escapes_range :
    sample_uniformly (fun _ => (3 : ℚ)/2) 1 1 2 (some (1/2)) = [0] ∧
    ((1 : ℚ) ≤ 3/2 ∧ (3 : ℚ)/2 < 2) ∧ ¬ ((1 : ℚ) ≤ 0) := by
  refine ⟨?_, ⟨by norm_num, by norm_num⟩, by norm_num⟩
  show [fmod ((3 : ℚ)/2 + (0 : ℚ) / (1 : ℚ)) ((2 - 1) - 1/2)] = [0]
  unfold fmod
  rw [show ((3 : ℚ)/2 + 0/1) / ((2 - 1) - 1/2) = 3 by norm_num]
  rw [show ⌊(3 : ℚ)⌋ = 3 from Int.floor_eq_iff.mpr (by norm_num)]
  norm_num

/-- C1 (amended): every sample of the plain-uniform variant (`offset = none`)
lies in `[low, high)`; every sample of the offset-stratified variant lies in
`[0, (high - low) - offset)` whenever that modulus is positive — which is
inside `[low, high)` only when `low = 0`, not for every valid
`(low, high)`. -/
theorem sample_uniformly_range (draw : ℕ → ℚ) (n : ℕ) (low high : ℚ)
    (hn : 0 < n) (hlh : low < high) (hd : ∀ i, low ≤ draw i ∧ draw i < high) :
    (∀ s ∈ sample_uniformly draw n low high none, low ≤ s ∧ s < high) ∧
    (∀ off : ℚ, 0 < (high - low) - off →
      ∀ s ∈ sample_uniformly draw n low high (some off),
        0 ≤ s ∧ s < (high - low) - off) := by
  constructor
  · intro s hs
    simp only [sample_uniformly, List.mem_map, List.mem_range] at hs
    obtain ⟨i, -, rfl⟩ := hs
    exact hd i
  · intro off hoff s hs
    simp only [sample_uniformly, List.mem_map, List.mem_range] at hs
    obtain ⟨i, -, rfl⟩ := hs
    exact ⟨fmod_nonneg _ _ hoff, fmod_lt _ _ hoff⟩

/-- Witness for `sample_uniformly_range`: at `low = 0`, `high = 1`,
`num_samples = 1`, draw `1/2`, both branches of the conclusion hold and yield
the concrete bounds below. -/
theorem sample_uniformly_range_witness :
    (0 ≤ (1 : ℚ)/2 ∧ (1 : ℚ)/2 < 1) ∧
    (0 ≤ fmod ((1 : ℚ)/2 + (0 : ℚ) / (1 : ℚ)) ((1 - 0) - 1/4) ∧
      fmod ((1 : ℚ)/2 + (0 : ℚ) / (1 : ℚ)) ((1 - 0) - 1/4) < (1 - 0) - 1/4) := by
  have h := sample_uniformly_range (fun _ => (1 : ℚ)/2) 1 0 1 (by norm_num)
    (by norm_num) (fun i => by norm_num)
  refine ⟨h.1 ((1 : ℚ)/2) ?_, h.2 (1/4) (by norm_num) _ ?_⟩
  · simp [sample_uniformly]
  · simp [sample_uniformly]

/-- C2 counterexample: the configuration `low = 0 < high = 1`,
`num_samples = 2`, `offset = 1/2` is valid and the single uniform draw `3/10`
lies in `[low, high)`, yet the two produced samples are `[3/10, 3/10]`: their
consecutive gap `0` is not congruent to `1/num_samples = 1/2` modulo the
range `high - low = 1`. -/
theorem sample_uniformly_gap_not_mod_range :
    sample_uniformly (fun _ => (3 : ℚ)/10) 2 0 1 (some (1/2)) = [3/10, 3/10] ∧
    ((0 : ℚ) ≤ 3/10 ∧ (3 : ℚ)/10 < 1) ∧
    ¬ ratModEq (1 - 0) ((3 : ℚ)/10 - 3/10) (1/2) := by
  refine ⟨?_, ⟨by norm_num, by norm_num⟩, ?_⟩
  · show [fmod ((3 : ℚ)/10 + (0 : ℚ) / (2 : ℚ)) ((1 - 0) - 1/2),
          fmod ((3 : ℚ)/10 + (1 : ℚ) / (2 : ℚ)) ((1 - 0) - 1/2)] = [3/10, 3/10]
    unfold fmod
    rw [show ((3 : ℚ)/10 + 0/2) / ((1 - 0) - 1/2) = 3/5 by norm_num]
    rw [show ⌊(3 : ℚ)/5⌋ = 0 from Int.floor_eq_iff.mpr (by norm_num)]
    rw [show ((3 : ℚ)/10 + 1/2) / ((1 - 0) - 1/2) = 8/5 by norm_num]
    rw [show ⌊(8 : ℚ)/5⌋ = 1 from Int.floor_eq_iff.mpr (by norm_num)]
    norm_num
  · rintro ⟨k, hk⟩
    norm_num at hk
    have h3 : ((2 * k : ℤ) : ℚ) = ((-1 : ℤ) : ℚ) := by push_cast; linarith
    have h4 : (2 * k : ℤ) = -1 := by exact_mod_cast h3
    omega

/-- C2 (amended): for every configuration and draw, the offset-stratified
variant returns exactly `num_samples` samples, derives them from the single
random draw `draw 0` plus deterministic offsets `i / num_samples`, and
consecutive samples differ by exactly `1/num_samples` modulo the modulus
`(high - low) - offset` actually used by the code (not modulo the range
`high - low`). -/
theorem sample_uniformly_stratified_gaps (draw : ℕ → ℚ) (n : ℕ)
    (low high off : ℚ) (i : ℕ) (hi : i + 1 < n) :
    (sample_uniformly draw n low high (some off)).length = n ∧
    sample_uniformly draw n low high (some off)
      = sample_uniformly (fun _ => draw 0) n low high (some off) ∧
    ratModEq ((high - low) - off)
      ((sample_uniformly draw n low high (some off)).getD (i + 1) 0
        - (sample_uniformly draw n low high (some off)).getD i 0)
      (1 / (n : ℚ)) := by
  have hsu : sample_uniformly draw n low high (some off)
      = (List.range n).map
          (fun j : ℕ => fmod (draw 0 + (j : ℚ) / (n : ℚ)) ((high - low) - off)) := by
    unfold sample_uniformly
    rfl
  refine ⟨?_, rfl, ?_⟩
  · rw [hsu, List.length_map, List.length_range]
  rw [hsu, getD_range_map _ n (i + 1) hi 0,
    getD_range_map _ n i (Nat.lt_of_succ_lt hi) 0]
  set m : ℚ := (high - low) - off with hm
  set a : ℚ := draw 0 + (i : ℚ) / (n : ℚ) with ha
  set b : ℚ := draw 0 + ((i + 1 : ℕ) : ℚ) / (n : ℚ) with hb
  have hdiff : b - a = 1 / (n : ℚ) := by
    rw [ha, hb]
    push_cast
    ring
  refine ⟨⌊a / m⌋ - ⌊b / m⌋, ?_⟩
  unfold fmod
  push_cast
  linear_combination hdiff

/-- Witness for `sample_uniformly_stratified_gaps` at the configuration
`low = 0`, `high = 1`, `offset = 1/2`, `num_samples = 2`, draw `3/10`,
consecutive pair `i = 0`. -/
theorem sample_uniformly_stratified_gaps_witness :
    (sample_uniformly (fun _ => (3 : ℚ)/10) 2 0 1 (some (1/2))).length = 2 ∧
    sample_uniformly (fun _ => (3 : ℚ)/10) 2 0 1 (some (1/2))
      = sample_uniformly (fun _ => (fun _ : ℕ => (3 : ℚ)/10) 0) 2 0 1
          (some (1/2)) ∧
    ratModEq ((1 - 0) - 1/2)
      ((sample_uniformly (fun _ => (3 : ℚ)/10) 2 0 1 (some (1/2))).getD (0 + 1) 0
        - (sample_uniformly (fun _ => (3 : ℚ)/10) 2 0 1 (some (1/2))).getD 0 0)
      (1 / ((2 : ℕ) : ℚ)) :=
  sample_uniformly_stratified_gaps (fun _ => (3 : ℚ)/10) 2 0 1 (1/2) 0
    (by norm_num)

/-! ## Validation step (`OTFlowMatching._valid_step`, `FlowMatching._valid_step`) -/

/-- The operations a validation step may perform, with the data they receive:
drawing the next validation batch, running it through the matching function,
running the unbalanced-rescaling update, and invoking the external callback
with `(batch, source-marginal weights a, target-marginal weights b)`. -/
inductive ValidCall (B W : Type) where
  | drawBatch : ValidCall B W
  | matchBatch (batch : B) : ValidCall B W
  | rescaleUpdate (batch : B) (a b : W) : ValidCall B W
  | callbackInvoke (batch : B) (a b : W) : ValidCall B W

/-- Result of `FlowMatching.match_fn` as consumed by `_valid_step`
(`batch, a, b = self.match_fn(batch)`). -/
structure MatchOut (B W : Type) where
  batch : B
  a : W
  b : W

/-- Shallow embedding of `FlowMatching._valid_step`
(`flow_matching.py`): draws a batch, runs it through `match_fn`, runs the
rescaling update when the problem is unbalanced, and invokes the callback
when one is configured; recorded as the list of calls performed. -/
def FlowMatching.valid_step {B W : Type} (match_fn : B → MatchOut B W)
    (is_balanced : Bool) (has_callback : Bool) (batch : B) :
    List (ValidCall B W) :=
  let out := match_fn batch
  [ValidCall.drawBatch, ValidCall.matchBatch batch] ++
    (if is_balanced then [] else [ValidCall.rescaleUpdate out.batch out.a out.b]) ++
    (if has_callback then [ValidCall.callbackInvoke out.batch out.a out.b] else [])

/-- Shallow embedding of `OTFlowMatching._valid_step` (`otfm.py`): the body is
`next(valid_loader)` followed by a `TODO: add callback and logging` comment —
it only draws the validation batch. -/
def OTFlowMatching.valid_step (B W : Type) : List (ValidCall B W) :=
  [ValidCall.drawBatch]

/-- C3 counterexample: the `OTFlowMatching` trainer's validation step
(concretely instantiated with natural-number batches and weights) performs
only the batch draw: it never runs the batch through matching and never
invokes the callback with the marginal weights. -/
theorem otfm_valid_step_no_callback :
    OTFlowMatching.valid_step ℕ ℕ = [ValidCall.drawBatch] ∧
    ValidCall.matchBatch (0 : ℕ) ∉ OTFlowMatching.valid_step ℕ ℕ ∧
    ValidCall.callbackInvoke (0 : ℕ) (0 : ℕ) (0 : ℕ) ∉
      OTFlowMatching.valid_step ℕ ℕ := by
  refine ⟨rfl, ?_, ?_⟩ <;> simp [OTFlowMatching.valid_step]

/-- C3 (amended): the `FlowMatching` variant's validation step runs the
drawn batch through the matching function, runs the rescaling update exactly
when the problem is unbalanced, and invokes the callback with
`(batch, a, b)` exactly when one is configured; the `OTFlowMatching`
variant's validation step only draws the validation batch (its callback and
logging are an unimplemented TODO). -/
theorem valid_step_spec (B W : Type) (match_fn : B → MatchOut B W)
    (bal cb : Bool) (batch : B) :
    ValidCall.matchBatch batch ∈ FlowMatching.valid_step match_fn bal cb batch ∧
    (ValidCall.rescaleUpdate (match_fn batch).batch (match_fn batch).a
        (match_fn batch).b ∈ FlowMatching.valid_step match_fn bal cb batch
      ↔ bal = false) ∧
    (ValidCall.callbackInvoke (match_fn batch).batch (match_fn batch).a
        (match_fn batch).b ∈ FlowMatching.valid_step match_fn bal cb batch
      ↔ cb = true) ∧
    OTFlowMatching.valid_step B W = [ValidCall.drawBatch] := by
  cases bal <;> cases cb <;>
    simp [FlowMatching.valid_step, OTFlowMatching.valid_step]

/-! ## ODE transport (`OTFlowMatching.transport`) -/

/-- Shallow embedding of `OTFlowMatching.transport` (`otfm.py`).
`odeSolve t0 t1 x0 cond` abstracts
`diffrax.diffeqsolve(ODETerm(vector field), t0=t0, t1=t1, y0=x0, ...).ys[0]`,
i.e. the terminal state of integrating the learned vector field from `t0` to
`t1` starting at `x0` under condition `cond`.  The code sets
`(t0, t1) = (0, 1)` when `forward` and `(1, 0)` otherwise, and maps
`solve_ode` over the batch with `jax.vmap(solve_ode)(data, condition)`, which
pairs the batch and condition arrays elementwise. -/
def OTFlowMatching.transport {X C : Type} (odeSolve : ℚ → ℚ → X → C → X)
    (forward : Bool) (data : List X) (condition : List C) : List X :=
  let t0 : ℚ := if forward then 0 else 1
  let t1 : ℚ := if forward then 1 else 0
  (data.zip condition).map (fun p => odeSolve t0 t1 p.1 p.2)

/-- C4: `transport` integrates from `t=0` to `t=1` when `forward` and from
`t=1` to `t=0` otherwise, and the `i`-th transported point is the terminal
state of integrating the `i`-th input point under the `i`-th condition alone
— no other sample of the batch enters (no cross-sample coupling). -/
theorem transport_pointwise (X C : Type) (odeSolve : ℚ → ℚ → X → C → X)
    (data : List X) (condition : List C) (forward : Bool)
    (hlen : data.length = condition.length) (i : ℕ) (hi : i < data.length)
    (dx : X) (dc : C) :
    (OTFlowMatching.transport odeSolve forward data condition).length
      = data.length ∧
    (OTFlowMatching.transport odeSolve forward data condition).getD i dx
      = odeSolve (if forward then 0 else 1) (if forward then 1 else 0)
          (data.getD i dx) (condition.getD i dc) := by
  have hzlen : (data.zip condition).length = data.length := by
    rw [List.length_zip, hlen, min_self]
  constructor
  · simp only [OTFlowMatching.transport, List.length_map, hzlen]
  · have hi' : i < ((data.zip condition).map
        (fun p => odeSolve (if forward then 0 else 1)
          (if forward then 1 else 0) p.1 p.2)).length := by
      rw [List.length_map, hzlen]; exact hi
    show ((data.zip condition).map
        (fun p => odeSolve (if forward then 0 else 1)
          (if forward then 1 else 0) p.1 p.2)).getD i dx = _
    rw [List.getD_eq_getElem _ _ hi', List.getElem_map, List.getElem_zip,
      List.getD_eq_getElem _ _ hi,
      List.getD_eq_getElem _ _ (by rw [← hlen]; exact hi)]

/-- Witness for `transport_pointwise`: a concrete one-point batch,
transported forward, lands exactly at `odeSolve 0 1 x c`. -/
theorem transport_pointwise_witness :
    (OTFlowMatching.transport
        (fun t0 t1 x c => t0 + 2 * t1 + x + c : ℚ → ℚ → ℚ → ℚ → ℚ)
        true [5] [7]).length = 1 ∧
    (OTFlowMatching.transport
        (fun t0 t1 x c => t0 + 2 * t1 + x + c : ℚ → ℚ → ℚ → ℚ → ℚ)
        true [5] [7]).getD 0 0 = 14 := by
  have h := transport_pointwise ℚ ℚ
    (fun t0 t1 x c => t0 + 2 * t1 + x + c) [5] [7] true rfl 0
    (by norm_num) 0 0
  refine ⟨h.1, ?_⟩
  rw [h.2]
  norm_num

/-! ## `save` / `load` / `training_logs` (`otfm.py`) -/

/-- Python exceptions raised by the modelled code paths. -/
inductive PyErr where
  | notImplementedError
  | unboundLocalError
  | zeroDivisionError
  deriving DecidableEq

/-- Shallow embedding of `OTFlowMatching.save`: `raise NotImplementedError`. -/
def OTFlowMatching.save (path : String) : Except PyErr Unit :=
  Except.error PyErr.notImplementedError

/-- Shallow embedding of `OTFlowMatching.load`: `raise NotImplementedError`. -/
def OTFlowMatching.load (path : String) : Except PyErr Unit :=
  Except.error PyErr.notImplementedError

/-- Shallow embedding of `OTFlowMatching.training_logs`:
`raise NotImplementedError`. -/
def OTFlowMatching.training_logs : Except PyErr Unit :=
  Except.error PyErr.notImplementedError

/-- C6: for every argument, `save`, `load` and `training_logs` raise
`NotImplementedError` — they fail loudly and never return successfully. -/
theorem save_load_logs_fail_loudly (path : String) :
    OTFlowMatching.save path = Except.error PyErr.notImplementedError ∧
    OTFlowMatching.load path = Except.error PyErr.notImplementedError ∧
    OTFlowMatching.training_logs = Except.error PyErr.notImplementedError ∧
    (OTFlowMatching.save path).isOk = false ∧
    (OTFlowMatching.load path).isOk = false ∧
    OTFlowMatching.training_logs.isOk = false :=
  ⟨rfl, rfl, rfl, rfl, rfl, rfl⟩

/-! ## `data_match_fn` dispatch (`tests/neural/genot_test.py`) -/

/-- Shallow embedding of `data_match_fn`.  The external matching routines
`utils.match_linear` and `utils.match_quadratic` are abstracted as the
function arguments `match_linear` and `match_quadratic` (they live outside
the analysed sources); the dispatch on the problem-type literal and the
`raise NotImplementedError` fallback are taken verbatim from the code. -/
def data_match_fn {Mat : Type}
    (match_linear : Option Mat → Option Mat → Mat)
    (match_quadratic : Option Mat → Option Mat → Option Mat → Option Mat → Mat)
    (src_lin tgt_lin src_quad tgt_quad : Option Mat) (typ : String) :
    Except PyErr Mat :=
  if typ = "lin" then Except.ok (match_linear src_lin tgt_lin)
  else if typ = "quad" then Except.ok (match_quadratic src_quad tgt_quad none none)
  else if typ = "fused" then
    Except.ok (match_quadratic src_quad tgt_quad src_lin tgt_lin)
  else Except.error PyErr.notImplementedError

/-- C7: `data_match_fn` returns a coupling matrix without raising for each of
the known problem kinds — linear (`"lin"`), quadratic (`"quad"`), fused
(`"fused"`) — and raises `NotImplementedError` immediately for every other
type value. -/
theorem data_match_fn_dispatch {Mat : Type}
    (match_linear : Option Mat → Option Mat → Mat)
    (match_quadratic : Option Mat → Option Mat → Option Mat → Option Mat → Mat)
    (src_lin tgt_lin src_quad tgt_quad : Option Mat) (typ : String) :
    ((typ = "lin" ∨ typ = "quad" ∨ typ = "fused") →
      ∃ m, data_match_fn match_linear match_quadratic
        src_lin tgt_lin src_quad tgt_quad typ = Except.ok m) ∧
    (typ ≠ "lin" → typ ≠ "quad" → typ ≠ "fused" →
      data_match_fn match_linear match_quadratic
        src_lin tgt_lin src_quad tgt_quad typ
          = Except.error PyErr.notImplementedError) := by
  constructor
  · rintro (rfl | rfl | rfl)
    · exact ⟨_, rfl⟩
    · exact ⟨_, rfl⟩
    · exact ⟨_, rfl⟩
  · intro h1 h2 h3
    simp [data_match_fn, h1, h2, h3]

/-- Witness for `data_match_fn_dispatch`: the known kind `"lin"` yields a
coupling, the unknown kind `"linear2"` raises `NotImplementedError`. -/
theorem data_match_fn_dispatch_witness :
    (∃ m, data_match_fn (fun _ _ => (0 : ℕ)) (fun _ _ _ _ => 1)
      none none none none "lin" = Except.ok m) ∧
    data_match_fn (fun _ _ => (0 : ℕ)) (fun _ _ _ _ => 1)
      none none none none "linear2" = Except.error PyErr.notImplementedError := by
  constructor
  · exact (data_match_fn_dispatch (fun _ _ => (0 : ℕ)) (fun _ _ _ _ => 1)
      none none none none "lin").1 (Or.inl rfl)
  · exact (data_match_fn_dispatch (fun _ _ => (0 : ℕ)) (fun _ _ _ _ => 1)
      none none none none "linear2").2 (by decide) (by decide) (by decide)

/-! ## Training loop (`OTFlowMatching.__call__` / `_get_step_fn`) -/

/-- JAX PRNG keys, abstracted: a key is either a root key or the `i`-th
sub-key obtained by splitting a parent key.  Splitting is deterministic. -/
inductive Key where
  | root (seed : ℕ) : Key
  | child (parent : Key) (i : ℕ) : Key
  deriving DecidableEq

/-- Deterministic model of `jax.random.split(key, n)`. -/
def Key.split (k : Key) (n : ℕ) : List Key :=
  (List.range n).map (Key.child k)

/-- The externally observable operations of one pass of the training loop:
drawing a batch from the training iterator, applying a gradient update,
running the unbalanced-rescaling step, drawing a validation batch inside
`_valid_step`, and saving a checkpoint. -/
inductive TrainEvent where
  | drawTrainBatch
  | gradUpdate
  | rescaleStep
  | drawValidBatch
  | checkpointSave
  deriving DecidableEq

/-- Configuration and collaborators of `OTFlowMatching`, as they bear on the
training loop.  `S` is the trainable state (vector-field parameters,
optimizer state and rescaling states together), `B` a batch, `M` a coupling
matrix.  `hasOtSolver` is `ot_solver is not None`; `learnRescaling` is the
`learn_rescaling` property `mlp_eta is not None or mlp_xi is not None`. -/
structure OTFMConfig (S B M : Type) where
  iterations : ℕ
  valid_freq : ℕ
  hasOtSolver : Bool
  learnRescaling : Bool
  hasCheckpointManager : Bool
  match_fn : B → M
  resample_fn : Key → M → B → B
  step_fn : Key → S → B → S × ℚ
  rescale_fn : B → M → S → S

/-- Shallow embedding of the body of `OTFlowMatching.__call__`, recursing on
the remaining iteration count (`fuel`), with `iter` the current index.  Per
iteration, in source order: split `self.rng` into
`(rng_resample, rng_step_fn, rng)`; draw the training batch; if an OT solver
is configured, compute `tmat = match_fn(...)` and resample; run the gradient
step; if `learn_rescaling`, run the rescaling step — which reads `tmat`, a
local only assigned in the OT-solver branch, so Python raises
`UnboundLocalError` when no OT solver is configured; every `valid_freq`
iterations (`iter % valid_freq == 0`, which in Python raises
`ZeroDivisionError` when `valid_freq == 0`), run `_valid_step` and, when a
checkpoint manager is configured, save.  The returned trace lists the events
performed before termination or before the raised exception. -/
def OTFlowMatching.run {S B M : Type} (cfg : OTFMConfig S B M)
    (loader : ℕ → B) :
    ℕ → ℕ → Key → S → List TrainEvent × Except PyErr S
  | 0, _, _, s => ([], Except.ok s)
  | fuel + 1, iter, rng, s =>
      let rng_resample := (Key.split rng 3).getD 0 rng
      let rng_step_fn := (Key.split rng 3).getD 1 rng
      let rng2 := (Key.split rng 3).getD 2 rng
      let batch := loader iter
      let bt : B × Option M :=
        if cfg.hasOtSolver then
          let tmat := cfg.match_fn batch
          (cfg.resample_fn rng_resample tmat batch, some tmat)
        else (batch, none)
      let s1 := (cfg.step_fn rng_step_fn s bt.1).1
      let pre := [TrainEvent.drawTrainBatch, TrainEvent.gradUpdate]
      let afterRescale : Except PyErr (S × List TrainEvent) :=
        if cfg.learnRescaling then
          match bt.2 with
          | none => Except.error PyErr.unboundLocalError
          | some tmat =>
              Except.ok (cfg.rescale_fn bt.1 tmat s1, [TrainEvent.rescaleStep])
        else Except.ok (s1, [])
      match afterRescale with
      | Except.error e => (pre, Except.error e)
      | Except.ok (s2, evR) =>
          if cfg.valid_freq = 0 then
            (pre ++ evR, Except.error PyErr.zeroDivisionError)
          else
            let evV :=
              if iter % cfg.valid_freq = 0 then
                TrainEvent.drawValidBatch ::
                  (if cfg.hasCheckpointManager then
                    [TrainEvent.checkpointSave] else [])
              else []
            let rest := OTFlowMatching.run cfg loader fuel (iter + 1) rng2 s2
            (pre ++ evR ++ evV ++ rest.1, rest.2)

/-- Shallow embedding of the `step_fn` closure built by
`OTFlowMatching._get_step_fn`: the step key is split into
`(key_noise, key_t, key_model)`, `key_model` is split into one key per batch
element, the interpolation times come from `time_sampler(key_t, batch_size)`,
the noise from `sample_noise(key_noise, batch_size)`, and the
loss-and-gradient update (`jax.value_and_grad(loss_fn)` followed by
`apply_gradients`) is abstracted as `value_and_grad_update`. -/
def OTFlowMatching.step_fn_model {S B T N : Type}
    (time_sampler : Key → ℕ → T) (sample_noise : Key → ℕ → N)
    (value_and_grad_update : S → T → N → B → List Key → S × ℚ)
    (batch_size : ℕ) (key : Key) (s : S) (batch : B) : S × ℚ :=
  let ks := Key.split key 3
  let key_noise := ks.getD 0 key
  let key_t := ks.getD 1 key
  let key_model := ks.getD 2 key
  let keys_model := Key.split key_model batch_size
  let t := time_sampler key_t batch_size
  let noise := sample_noise key_noise batch_size
  value_and_grad_update s t noise batch keys_model

/-- C5: the training loop and the training step are pure functions of the
explicitly threaded key, state and data — two runs with identical root key,
identical initial state and identical batch streams produce identical
traces, identical final states, and identical step outputs (hence identical
trained parameters). -/
theorem training_deterministic {S B M T N : Type} (cfg : OTFMConfig S B M)
    (loader₁ loader₂ : ℕ → B) (k₁ k₂ : Key) (s₁ s₂ : S)
    (time_sampler : Key → ℕ → T) (sample_noise : Key → ℕ → N)
    (value_and_grad_update : S → T → N → B → List Key → S × ℚ)
    (batch_size : ℕ)
    (hL : loader₁ = loader₂) (hk : k₁ = k₂) (hs : s₁ = s₂) :
    OTFlowMatching.run cfg loader₁ cfg.iterations 0 k₁ s₁
      = OTFlowMatching.run cfg loader₂ cfg.iterations 0 k₂ s₂ ∧
    OTFlowMatching.step_fn_model time_sampler sample_noise
        value_and_grad_update batch_size k₁ s₁ (loader₁ 0)
      = OTFlowMatching.step_fn_model time_sampler sample_noise
        value_and_grad_update batch_size k₂ s₂ (loader₂ 0) := by
  subst hL hk hs
  exact ⟨rfl, rfl⟩

/-- A concrete `OTFMConfig` over natural-number states, batches and coupling
matrices, used to instantiate the training-loop theorems. -/
def mkNatConfig (iterations valid_freq : ℕ)
    (hasOt learn ckpt : Bool) : OTFMConfig ℕ ℕ ℕ :=
  { iterations := iterations
    valid_freq := valid_freq
    hasOtSolver := hasOt
    learnRescaling := learn
    hasCheckpointManager := ckpt
    match_fn := fun b => b + 1
    resample_fn := fun _ m b => m + b
    step_fn := fun _ s b => (s + b, 0)
    rescale_fn := fun b m s => s + b + m }

/-- Witness for `training_deterministic` at a concrete configuration. -/
theorem training_deterministic_witness :
    OTFlowMatching.run (mkNatConfig 3 2 true false false) (fun i => i)
        (mkNatConfig 3 2 true false false).iterations 0 (Key.root 0) 0
      = OTFlowMatching.run (mkNatConfig 3 2 true false false) (fun i => i)
        (mkNatConfig 3 2 true false false).iterations 0 (Key.root 0) 0 ∧
    OTFlowMatching.step_fn_model (fun _ n => n) (fun _ n => n)
        (fun s _ _ _ _ => (s, 0)) 4 (Key.root 0) (0 : ℕ) ((fun i : ℕ => i) 0)
      = OTFlowMatching.step_fn_model (fun _ n => n) (fun _ n => n)
        (fun s _ _ _ _ => (s, 0)) 4 (Key.root 0) (0 : ℕ) ((fun i : ℕ => i) 0) :=
  training_deterministic (mkNatConfig 3 2 true false false)
    (fun i => i) (fun i => i) (Key.root 0) (Key.root 0) 0 0
    (fun _ n => n) (fun _ n => n) (fun s _ _ _ _ => (s, 0)) 4 rfl rfl rfl

/-- Loop invariant for `OTFlowMatching.run`: when `valid_freq` is positive
and rescaling is only enabled together with an OT solver, every pass
succeeds, and each pass draws exactly one training batch and applies exactly
one gradient update. -/
theorem run_ok_counts {S B M : Type} (cfg : OTFMConfig S B M) (loader : ℕ → B)
    (hv : ¬ cfg.valid_freq = 0)
    (hr : cfg.learnRescaling = true → cfg.hasOtSolver = true) :
    ∀ (fuel iter : ℕ) (k : Key) (s : S),
      (∃ sf, (OTFlowMatching.run cfg loader fuel iter k s).2 = Except.ok sf) ∧
      (OTFlowMatching.run cfg loader fuel iter k s).1.count
        TrainEvent.drawTrainBatch = fuel ∧
      (OTFlowMatching.run cfg loader fuel iter k s).1.count
        TrainEvent.gradUpdate = fuel := by
  intro fuel
  induction fuel with
  | zero => exact fun iter k s => ⟨⟨s, rfl⟩, rfl, rfl⟩
  | succ fuel ih =>
    intro iter k s
    rw [OTFlowMatching.run]
    cases hlr : cfg.learnRescaling with
    | true =>
      have hot : cfg.hasOtSolver = true := hr hlr
      simp only [hlr, hot, if_true, if_neg hv]
      obtain ⟨⟨sf, hsf⟩, h1, h2⟩ := ih (iter + 1) ((Key.split k 3).getD 2 k) _
      refine ⟨⟨sf, hsf⟩, ?_, ?_⟩ <;>
        by_cases hit : iter % cfg.valid_freq = 0 <;>
        cases hcp : cfg.hasCheckpointManager <;>
        simp_all [List.count_append, List.count_cons]
    | false =>
      simp only [hlr, Bool.false_eq_true, if_false, if_neg hv]
      cases hot : cfg.hasOtSolver with
      | true =>
        simp only [if_true]
        obtain ⟨⟨sf, hsf⟩, h1, h2⟩ := ih (iter + 1) ((Key.split k 3).getD 2 k) _
        refine ⟨⟨sf, hsf⟩, ?_, ?_⟩ <;>
          by_cases hit : iter % cfg.valid_freq = 0 <;>
          cases hcp : cfg.hasCheckpointManager <;>
          simp_all [List.count_append, List.count_cons]
      | false =>
        simp only [Bool.false_eq_true, if_false]
        obtain ⟨⟨sf, hsf⟩, h1, h2⟩ := ih (iter + 1) ((Key.split k 3).getD 2 k) _
        refine ⟨⟨sf, hsf⟩, ?_, ?_⟩ <;>
          by_cases hit : iter % cfg.valid_freq = 0 <;>
          cases hcp : cfg.hasCheckpointManager <;>
          simp_all [List.count_append, List.count_cons]

/-- C8 counterexample: a configuration with `iterations = 1` whose rescaling
models are set while `ot_solver` is `None` does not complete its single
training step — the loop aborts with `UnboundLocalError` instead of
terminating after `iterations` steps. -/
theorem run_aborts_on_rescaling_without_solver :
    (OTFlowMatching.run (mkNatConfig 1 2 false true false) (fun i => i)
      (mkNatConfig 1 2 false true false).iterations 0 (Key.root 0) 0).2
        = Except.error PyErr.unboundLocalError ∧
    ¬ ∃ sf, (OTFlowMatching.run (mkNatConfig 1 2 false true false) (fun i => i)
      (mkNatConfig 1 2 false true false).iterations 0 (Key.root 0) 0).2
        = Except.ok sf := by
  constructor
  · rfl
  · rintro ⟨sf, hsf⟩
    rw [show (OTFlowMatching.run (mkNatConfig 1 2 false true false)
        (fun i => i) (mkNatConfig 1 2 false true false).iterations 0
        (Key.root 0) 0).2 = Except.error PyErr.unboundLocalError from rfl] at hsf
    exact Except.noConfusion hsf

/-- C8 (amended): for every configuration with positive `valid_freq` in
which rescaling is enabled only together with an OT solver, the training
loop performs exactly `iterations` passes — it draws exactly `iterations`
training batches, applies exactly `iterations` gradient updates, and
terminates successfully; there is no early-stopping path. -/
theorem run_exact_iterations {S B M : Type} (cfg : OTFMConfig S B M)
    (loader : ℕ → B) (k : Key) (s : S)
    (hv : ¬ cfg.valid_freq = 0)
    (hr : cfg.learnRescaling = true → cfg.hasOtSolver = true) :
    (∃ sf, (OTFlowMatching.run cfg loader cfg.iterations 0 k s).2
      = Except.ok sf) ∧
    (OTFlowMatching.run cfg loader cfg.iterations 0 k s).1.count
      TrainEvent.drawTrainBatch = cfg.iterations ∧
    (OTFlowMatching.run cfg loader cfg.iterations 0 k s).1.count
      TrainEvent.gradUpdate = cfg.iterations :=
  run_ok_counts cfg loader hv hr cfg.iterations 0 k s

/-- Witness for `run_exact_iterations`: a three-iteration balanced
configuration with an OT solver draws three batches and applies three
gradient updates. -/
theorem run_exact_iterations_witness :
    (∃ sf, (OTFlowMatching.run (mkNatConfig 3 2 true false false)
      (fun i => i) (mkNatConfig 3 2 true false false).iterations 0
      (Key.root 0) 0).2 = Except.ok sf) ∧
    (OTFlowMatching.run (mkNatConfig 3 2 true false false) (fun i => i)
      (mkNatConfig 3 2 true false false).iterations 0
      (Key.root 0) 0).1.count TrainEvent.drawTrainBatch = 3 ∧
    (OTFlowMatching.run (mkNatConfig 3 2 true false false) (fun i => i)
      (mkNatConfig 3 2 true false false).iterations 0
      (Key.root 0) 0).1.count TrainEvent.gradUpdate = 3 :=
  run_exact_iterations (mkNatConfig 3 2 true false false) (fun i => i)
    (Key.root 0) 0 (by decide) (by decide)

/-- C10: whenever the rescaling sub-models are configured
(`learn_rescaling`) but `ot_solver` is `None`, the first pass of the
training loop fails: the batch is drawn and the gradient step still runs,
but the rescaling branch then reads the local `tmat`, which is only assigned
inside the `ot_solver is not None` branch, and the loop aborts with
`UnboundLocalError` — unbalanced rescaling has the unstated precondition
that an OT solver is configured. -/
theorem rescaling_requires_ot_solver {S B M : Type} (cfg : OTFMConfig S B M)
    (loader : ℕ → B) (k : Key) (s : S)
    (hlr : cfg.learnRescaling = true) (hot : cfg.hasOtSolver = false)
    (hn : 1 ≤ cfg.iterations) :
    OTFlowMatching.run cfg loader cfg.iterations 0 k s
      = ([TrainEvent.drawTrainBatch, TrainEvent.gradUpdate],
         Except.error PyErr.unboundLocalError) := by
  obtain ⟨m, hm⟩ : ∃ m, cfg.iterations = m + 1 :=
    ⟨cfg.iterations - 1, by omega⟩
  rw [hm, OTFlowMatching.run]
  simp only [hlr, hot, Bool.false_eq_true, if_false, if_true]

/-- Witness for `rescaling_requires_ot_solver` at a concrete configuration
(`iterations = 3`, rescaling models set, no OT solver). -/
theorem rescaling_requires_ot_solver_witness :
    OTFlowMatching.run (mkNatConfig 3 2 false true true) (fun i => i)
        (mkNatConfig 3 2 false true true).iterations 0 (Key.root 7) 5
      = ([TrainEvent.drawTrainBatch, TrainEvent.gradUpdate],
         Except.error PyErr.unboundLocalError) :=
  rescaling_requires_ot_solver (mkNatConfig 3 2 false true true)
    (fun i => i) (Key.root 7) 5 rfl rfl (by decide)

/-! ## Continuous barycenter solver (cost history and convergence) -/

theorem getD_set_self {l : List ℚ} {i : ℕ} (a d : ℚ) (h : i < l.length) :
    (l.set i a).getD i d = a := by
  rw [List.getD_eq_getElem?_getD, List.getElem?_set_eq_of_lt a h]
  rfl

theorem getD_set_ne {l : List ℚ} {i j : ℕ} (a d : ℚ) (h : i ≠ j) :
    (l.set i a).getD j d = l.getD j d := by
  rw [List.getD_eq_getElem?_getD, List.getElem?_set_ne h,
    ← List.getD_eq_getElem?_getD]

theorem getD_replicate_sentinel (n j : ℕ) :
    (List.replicate n (-1 : ℚ)).getD j (-1) = -1 := by
  rw [List.getD_eq_getElem?_getD, List.getElem?_replicate]
  split <;> rfl

/-- Final state of the modelled barycenter solver: the barycenter state, the
trailing cost history, and the number of iterations performed. -/
structure BarycenterOut (S : Type) where
  state : S
  costs : List ℚ
  iters : ℕ

/-- Modelled from the spec: the iteration/convergence loop of
`continuous_barycenter.WassersteinBarycenter`, whose implementation is not
among the analysed sources (only its test is).  Per the spec, each outer
iteration updates the barycenter (couplings then point update, abstracted
here as `update`) and computes the total cost (`cost`); the solver "must
track a bounded trailing history of costs for the convergence check,
initialized to a sentinel value" (the test uses the sentinel `-1` and filters
`costs[costs > -1]`), and stops "when successive total costs differ by less
than a threshold, or after a maximum iteration budget" (the test checks
`jnp.isclose(costs[-2], costs[-1], rtol=threshold)`, a relative
comparison).  `fuel` is the remaining budget and `i` the current iteration
index into the history. -/
def WassersteinBarycenter.runAux {S : Type} (update : S → S) (cost : S → ℚ)
    (threshold : ℚ) : ℕ → ℕ → S → List ℚ → BarycenterOut S
  | 0, i, s, cs => ⟨s, cs, i⟩
  | fuel + 1, i, s, cs =>
      let s1 := update s
      let c := cost s1
      let cs1 := cs.set i c
      if 1 ≤ i ∧ |cs1.getD (i - 1) 0 - c| ≤ threshold * |c| then ⟨s1, cs1, i + 1⟩
      else WassersteinBarycenter.runAux update cost threshold fuel (i + 1) s1 cs1

/-- Modelled from the spec: entry point of the barycenter solver — the cost
history is a `max_iterations`-sized array initialized to the sentinel `-1`.
See `WassersteinBarycenter.runAux`. -/
def WassersteinBarycenter.solve {S : Type} (update : S → S) (cost : S → ℚ)
    (threshold : ℚ) (max_iterations : ℕ) (init : S) : BarycenterOut S :=
  WassersteinBarycenter.runAux update cost threshold max_iterations 0 init
    (List.replicate max_iterations (-1))

/-- Loop invariant for `WassersteinBarycenter.runAux`: the history keeps its
bounded size, the first `iters` entries are genuine costs (above the
sentinel), the remaining entries are still the sentinel `-1`, and the loop
stops either with the last two recorded costs within the threshold or with
the budget exhausted. -/
theorem barycenter_runAux_spec {S : Type} (update : S → S) (cost : S → ℚ)
    (θ : ℚ) (hc : ∀ s, -1 < cost s) :
    ∀ (fuel i : ℕ) (s : S) (cs : List ℚ),
      cs.length = i + fuel →
      (∀ j, i ≤ j → cs.getD j (-1) = -1) →
      (∀ j, j < i → -1 < cs.getD j (-1)) →
      (WassersteinBarycenter.runAux update cost θ fuel i s cs).costs.length
          = i + fuel ∧
      i ≤ (WassersteinBarycenter.runAux update cost θ fuel i s cs).iters ∧
      (WassersteinBarycenter.runAux update cost θ fuel i s cs).iters
          ≤ i + fuel ∧
      (∀ j, (WassersteinBarycenter.runAux update cost θ fuel i s cs).iters ≤ j →
        (WassersteinBarycenter.runAux update cost θ fuel i s cs).costs.getD
          j (-1) = -1) ∧
      (∀ j, j < (WassersteinBarycenter.runAux update cost θ fuel i s cs).iters →
        -1 < (WassersteinBarycenter.runAux update cost θ fuel i s cs).costs.getD
          j (-1)) ∧
      ((WassersteinBarycenter.runAux update cost θ fuel i s cs).iters
          = i + fuel ∨
        (2 ≤ (WassersteinBarycenter.runAux update cost θ fuel i s cs).iters ∧
          |(WassersteinBarycenter.runAux update cost θ fuel i s cs).costs.getD
              ((WassersteinBarycenter.runAux update cost θ fuel i s cs).iters - 2) 0
            - (WassersteinBarycenter.runAux update cost θ fuel i s cs).costs.getD
              ((WassersteinBarycenter.runAux update cost θ fuel i s cs).iters - 1) 0|
            ≤ θ * |(WassersteinBarycenter.runAux update cost θ fuel i s cs).costs.getD
              ((WassersteinBarycenter.runAux update cost θ fuel i s cs).iters - 1) 0|)) := by
  intro fuel
  induction fuel with
  | zero =>
    intro i s cs hlen hsent hcost
    rw [WassersteinBarycenter.runAux]
    exact ⟨hlen, le_refl i, Nat.le_add_right i 0, hsent, hcost, Or.inl rfl⟩
  | succ fuel ih =>
    intro i s cs hlen hsent hcost
    rw [WassersteinBarycenter.runAux]
    have hi_lt : i < cs.length := by omega
    have hlen1 : (cs.set i (cost (update s))).length = i + 1 + fuel := by
      rw [List.length_set]; omega
    have hsent1 : ∀ j, i + 1 ≤ j →
        (cs.set i (cost (update s))).getD j (-1) = -1 := by
      intro j hj
      rw [getD_set_ne _ _ (by omega)]
      exact hsent j (by omega)
    have hcost1 : ∀ j, j < i + 1 →
        -1 < (cs.set i (cost (update s))).getD j (-1) := by
      intro j hj
      rcases Nat.lt_or_ge j i with hji | hji
      · rw [getD_set_ne _ _ (by omega)]
        exact hcost j hji
      · have : j = i := by omega
        subst this
        rw [getD_set_self _ _ hi_lt]
        exact hc _
    split
    · next hconv =>
      obtain ⟨hi1, hcl⟩ := hconv
      dsimp only
      refine ⟨by omega, by omega, by omega, hsent1, hcost1,
        Or.inr ⟨by omega, ?_⟩⟩
      have h2 : i + 1 - 1 = i := by omega
      have h1 : i + 1 - 2 = i - 1 := by omega
      rw [h1, h2, getD_set_self _ _ hi_lt]
      exact hcl
    · next hconv =>
      obtain ⟨t1, t2, t3, t4, t5, t6⟩ := ih (i + 1) (update s)
        (cs.set i (cost (update s))) hlen1 hsent1 hcost1
      refine ⟨by omega, by omega, by omega, t4, t5, ?_⟩
      rcases t6 with h | h
      · exact Or.inl (by omega)
      · exact Or.inr h

/-- C9: the barycenter solver's trailing cost history is bounded (one slot
per budgeted iteration), initialized to the sentinel `-1`; entries not yet
computed still hold the sentinel on return while computed entries exceed it
(so discarding sentinels recovers exactly the recorded costs), and the
solver returns either with the budget exhausted or with the last two
recorded costs within the configured relative threshold of each other. -/
theorem barycenter_cost_history {S : Type} (update : S → S) (cost : S → ℚ)
    (θ : ℚ) (budget : ℕ) (init : S) (hc : ∀ s, -1 < cost s) :
    (WassersteinBarycenter.solve update cost θ budget init).costs.length
        = budget ∧
    (WassersteinBarycenter.solve update cost θ budget init).iters ≤ budget ∧
    (∀ j, (WassersteinBarycenter.solve update cost θ budget init).iters ≤ j →
      (WassersteinBarycenter.solve update cost θ budget init).costs.getD
        j (-1) = -1) ∧
    (∀ j, j < (WassersteinBarycenter.solve update cost θ budget init).iters →
      -1 < (WassersteinBarycenter.solve update cost θ budget init).costs.getD
        j (-1)) ∧
    ((WassersteinBarycenter.solve update cost θ budget init).iters = budget ∨
      (2 ≤ (WassersteinBarycenter.solve update cost θ budget init).iters ∧
        |(WassersteinBarycenter.solve update cost θ budget init).costs.getD
            ((WassersteinBarycenter.solve update cost θ budget init).iters - 2) 0
          - (WassersteinBarycenter.solve update cost θ budget init).costs.getD
            ((WassersteinBarycenter.solve update cost θ budget init).iters - 1) 0|
          ≤ θ * |(WassersteinBarycenter.solve update cost θ budget init).costs.getD
            ((WassersteinBarycenter.solve update cost θ budget init).iters - 1) 0|)) := by
  have h := barycenter_runAux_spec update cost θ hc budget 0 init
    (List.replicate budget (-1))
    (by rw [List.length_replicate]; omega)
    (fun j _ => getD_replicate_sentinel budget j)
    (fun j hj => absurd hj (Nat.not_lt_zero j))
  exact ⟨by simpa using h.1, by simpa using h.2.2.1, h.2.2.2.1,
    h.2.2.2.2.1, by simpa using h.2.2.2.2.2⟩

/-- Witness for `barycenter_cost_history`: a concrete two-iteration run
(strictly increasing costs, zero threshold) exhausts its budget with a
two-slot history. -/
theorem barycenter_cost_history_witness :
    (WassersteinBarycenter.solve Nat.succ (fun s : ℕ => (s : ℚ)) 0 2 0).costs.length
        = 2 ∧
    ((WassersteinBarycenter.solve Nat.succ (fun s : ℕ => (s : ℚ)) 0 2 0).iters = 2 ∨
      (2 ≤ (WassersteinBarycenter.solve Nat.succ (fun s : ℕ => (s : ℚ)) 0 2 0).iters ∧
        |(WassersteinBarycenter.solve Nat.succ (fun s : ℕ => (s : ℚ)) 0 2 0).costs.getD
            ((WassersteinBarycenter.solve Nat.succ (fun s : ℕ => (s : ℚ)) 0 2 0).iters - 2) 0
          - (WassersteinBarycenter.solve Nat.succ (fun s : ℕ => (s : ℚ)) 0 2 0).costs.getD
            ((WassersteinBarycenter.solve Nat.succ (fun s : ℕ => (s : ℚ)) 0 2 0).iters - 1) 0|
          ≤ 0 * |(WassersteinBarycenter.solve Nat.succ (fun s : ℕ => (s : ℚ)) 0 2 0).costs.getD
            ((WassersteinBarycenter.solve Nat.succ (fun s : ℕ => (s : ℚ)) 0 2 0).iters - 1) 0|)) := by
  have h := barycenter_cost_history Nat.succ (fun s : ℕ => (s : ℚ)) 0 2 0
    (fun s => lt_of_lt_of_le (by norm_num) (Nat.cast_nonneg s))
  exact ⟨h.1, h.2.2.2.2⟩

end OttNeural
